import Mathlib

/-!
Shallow embedding of the MIPS I virtual machine of `src/vm.hpp`
(class `VirtualMachine`).  Machine words are modelled as `Nat` with
explicit reduction modulo `2 ^ 32` at exactly the places where the C++
code performs 32-bit unsigned arithmetic; `static_cast` to the signed
C++ types `char`, `short`, `int` is modelled by the explicit
two's-complement reinterpretations `toSigned8`, `toSigned16`,
`toSigned32` returning `Int`.  `std::vector::at` is bounds checked and
throws on an out-of-range index, so memory access returns `Option`;
`exit(1)` on an unknown opcode or funct, an uncaught `std::out_of_range`,
and C++ undefined behaviour (integer division by zero) are all modelled
as `none` from `cycle`.
-/

/-- Bitfield selectors of `VirtualMachine::extract` (enum `ExtractKind`). -/
inductive ExtractKind where
  | OP | RS | RT | RD | SHMT | FN | ADDR | IMMD

open ExtractKind

/-- Bitfield extraction, one case per `ExtractKind`, with the masks and
shifts of `VirtualMachine::extract`.  For `ADDR` the C++ code already
shifts the 26-bit target left by 2; the result fits in 28 bits, so the
32-bit shift cannot wrap. -/
def extract (value : Nat) : ExtractKind → Nat
  | OP => (value &&& 0xFC000000) >>> 26
  | RS => (value &&& 0x03E00000) >>> 21
  | RT => (value &&& 0x001F0000) >>> 16
  | RD => (value &&& 0x0000F800) >>> 11
  | SHMT => (value &&& 0x000007C0) >>> 6
  | FN => value &&& 0x0000003F
  | ADDR => (value &&& 0x03FFFFFF) <<< 2
  | IMMD => value &&& 0x0000FFFF

/-- The `rs` field of an instruction word is a 5-bit value. -/
theorem extract_rs_lt (w : Nat) : extract w RS < 32 := by
  show (w &&& 0x03E00000) >>> 21 < 32
  have h : w &&& 0x03E00000 ≤ 0x03E00000 := Nat.and_le_right
  calc (w &&& 0x03E00000) >>> 21 = (w &&& 0x03E00000) / 2 ^ 21 := by
        rw [Nat.shiftRight_eq_div_pow]
    _ ≤ 0x03E00000 / 2 ^ 21 := Nat.div_le_div_right h
    _ < 32 := by norm_num

/-- The `rt` field of an instruction word is a 5-bit value. -/
theorem extract_rt_lt (w : Nat) : extract w RT < 32 := by
  show (w &&& 0x001F0000) >>> 16 < 32
  have h : w &&& 0x001F0000 ≤ 0x001F0000 := Nat.and_le_right
  calc (w &&& 0x001F0000) >>> 16 = (w &&& 0x001F0000) / 2 ^ 16 := by
        rw [Nat.shiftRight_eq_div_pow]
    _ ≤ 0x001F0000 / 2 ^ 16 := Nat.div_le_div_right h
    _ < 32 := by norm_num

/-- The `rd` field of an instruction word is a 5-bit value. -/
theorem extract_rd_lt (w : Nat) : extract w RD < 32 := by
  show (w &&& 0x0000F800) >>> 11 < 32
  have h : w &&& 0x0000F800 ≤ 0x0000F800 := Nat.and_le_right
  calc (w &&& 0x0000F800) >>> 11 = (w &&& 0x0000F800) / 2 ^ 11 := by
        rw [Nat.shiftRight_eq_div_pow]
    _ ≤ 0x0000F800 / 2 ^ 11 := Nat.div_le_div_right h
    _ < 32 := by norm_num

/-- The `rs` field as an index into the 32-entry register file. -/
def rsIdx (w : Nat) : Fin 32 := ⟨extract w RS, extract_rs_lt w⟩

/-- The `rt` field as an index into the 32-entry register file. -/
def rtIdx (w : Nat) : Fin 32 := ⟨extract w RT, extract_rt_lt w⟩

/-- The `rd` field as an index into the 32-entry register file. -/
def rdIdx (w : Nat) : Fin 32 := ⟨extract w RD, extract_rd_lt w⟩

/-- Reinterpretation of an 8-bit value as C++ `char` (two's complement). -/
def toSigned8 (x : Nat) : Int :=
  if x < 0x80 then (x : Int) else (x : Int) - 0x100

/-- Reinterpretation of a 16-bit value as C++ `short` (two's complement),
modelling `static_cast<short>` applied to an extracted immediate. -/
def toSigned16 (x : Nat) : Int :=
  if x < 0x8000 then (x : Int) else (x : Int) - 0x10000

/-- Reinterpretation of a 32-bit value as C++ `int` (two's complement),
modelling `static_cast<int>` applied to a register value. -/
def toSigned32 (x : Nat) : Int :=
  if x < 0x80000000 then (x : Int) else (x : Int) - 0x100000000

/-- Conversion of an integer to `unsigned` (32-bit wrap-around). -/
def wrap32 (x : Int) : Nat := (x % (2 ^ 32 : Int)).toNat

/-- Conversion of an integer to `unsigned long` (64-bit wrap-around). -/
def wrap64 (x : Int) : Nat := (x % (2 ^ 64 : Int)).toNat

/-- Architectural state of `VirtualMachine`: 32 general purpose
registers, byte addressable memory, the instruction pointer `ip`, and
the `hi`/`lo` multiply-divide registers. -/
structure VM where
  registers : Fin 32 → Nat
  memory : List Nat
  ip : Nat
  hi : Nat
  lo : Nat

/-- Register file update; the source writes through
`registers.at(i) = v` with no special casing of register 0. -/
def setReg (R : Fin 32 → Nat) (i : Fin 32) (v : Nat) : Fin 32 → Nat :=
  fun j => if j = i then v else R j

/-- Memory read at a C++ `int` address: the `int` is converted to
`size_t` (sign-extending, so a negative address is far beyond any
vector length) and `std::vector::at` throws when out of range. -/
def memAtInt (m : List Nat) (a : Int) : Option Nat :=
  if a < 0 then none else m.get? a.toNat

/-- Memory write at a C++ `int` address, bounds checked like
`memAtInt`. -/
def setMemInt (m : List Nat) (a : Int) (v : Nat) : Option (List Nat) :=
  if a < 0 then none
  else if a.toNat < m.length then some (m.set a.toNat v) else none

/-- Effective address of `lb`, `lh`, `lw`, `sb`, `sh`, `sw`:
`int address = (int)registers.at(rs) + (short)extract(instr, IMMD)`,
with the `int` sum wrapped to 32 bits. -/
def eaSigned (vm : VM) (instr : Nat) : Int :=
  toSigned32 (wrap32 (toSigned32 (vm.registers (rsIdx instr)) +
    toSigned16 (extract instr IMMD)))

/-- Effective address of `lbu` and `lhu`:
`unsigned address = registers.at(rs) + extract(instr, IMMD)` — the
immediate is NOT sign extended here in the source. -/
def eaUnsigned (vm : VM) (instr : Nat) : Nat :=
  (vm.registers (rsIdx instr) + extract instr IMMD) % 2 ^ 32

/-- Instruction pointer of a taken branch:
`ip += 4 + ((short)extract(instr, IMMD) << 2)`. -/
def branchTakenIp (ip : Nat) (instr : Nat) : Nat :=
  wrap32 ((ip : Int) + 4 + toSigned16 (extract instr IMMD) * 4)

/-- Big-endian 32-bit instruction fetch (`VirtualMachine::fetch`). -/
def fetch (vm : VM) : Option Nat := do
  let b0 ← vm.memory.get? vm.ip
  let b1 ← vm.memory.get? (vm.ip + 1)
  let b2 ← vm.memory.get? (vm.ip + 2)
  let b3 ← vm.memory.get? (vm.ip + 3)
  some ((b0 <<< 24) ||| (b1 <<< 16) ||| (b2 <<< 8) ||| b3)

/-- Opcode 0x02 (`j`). -/
def execJ (vm : VM) (instr : Nat) : Option VM :=
  some { vm with ip := (vm.ip &&& 0xF0000000) ||| extract instr ADDR }

/-- Opcode 0x03 (`jal`): link in register 31, then jump as `j`. -/
def execJal (vm : VM) (instr : Nat) : Option VM :=
  some { vm with
    registers := setReg vm.registers 31 ((vm.ip + 4) % 2 ^ 32),
    ip := (vm.ip &&& 0xF0000000) ||| extract instr ADDR }

/-- Opcode 0x20 (`lb`): sign extended byte load at the signed effective
address. -/
def execLb (vm : VM) (instr : Nat) : Option VM := do
  let a := eaSigned vm instr
  let b ← memAtInt vm.memory a
  some { vm with
    registers := setReg vm.registers (rtIdx instr) (wrap32 (toSigned8 b)),
    ip := (vm.ip + 4) % 2 ^ 32 }

/-- Opcode 0x24 (`lbu`): byte load at the unsigned effective address
(the source does not sign extend the immediate here). -/
def execLbu (vm : VM) (instr : Nat) : Option VM := do
  let b ← vm.memory.get? (eaUnsigned vm instr)
  some { vm with
    registers := setReg vm.registers (rtIdx instr) b,
    ip := (vm.ip + 4) % 2 ^ 32 }

/-- Opcode 0x21 (`lh`): big-endian halfword load, sign extended through
`short`. -/
def execLh (vm : VM) (instr : Nat) : Option VM := do
  let a := eaSigned vm instr
  let b0 ← memAtInt vm.memory a
  let b1 ← memAtInt vm.memory (a + 1)
  let half := (b0 <<< 8) ||| b1
  some { vm with
    registers := setReg vm.registers (rtIdx instr) (wrap32 (toSigned16 half)),
    ip := (vm.ip + 4) % 2 ^ 32 }

/-- Opcode 0x25 (`lhu`): the source stores the halfword into an
`unsigned char`, keeping only the low 8 bits, at the unsigned
effective address. -/
def execLhu (vm : VM) (instr : Nat) : Option VM := do
  let a := eaUnsigned vm instr
  let b0 ← vm.memory.get? a
  let b1 ← vm.memory.get? (a + 1)
  let value := ((b0 <<< 8) ||| b1) % 0x100
  some { vm with
    registers := setReg vm.registers (rtIdx instr) value,
    ip := (vm.ip + 4) % 2 ^ 32 }

/-- Opcode 0x23 (`lw`): big-endian word load at the signed effective
address. -/
def execLw (vm : VM) (instr : Nat) : Option VM := do
  let a := eaSigned vm instr
  let b0 ← memAtInt vm.memory a
  let b1 ← memAtInt vm.memory (a + 1)
  let b2 ← memAtInt vm.memory (a + 2)
  let b3 ← memAtInt vm.memory (a + 3)
  let w := (b0 <<< 24) ||| (b1 <<< 16) ||| (b2 <<< 8) ||| b3
  some { vm with
    registers := setReg vm.registers (rtIdx instr) (w % 2 ^ 32),
    ip := (vm.ip + 4) % 2 ^ 32 }

/-- Opcode 0x0F (`lui`): the source stores
`extract(instr, IMMD) << 16` into an `unsigned short`, keeping only the
low 16 bits (which are zero), and writes the `rd` register. -/
def execLui (vm : VM) (instr : Nat) : Option VM :=
  let value := ((extract instr IMMD) <<< 16) % 0x10000
  some { vm with
    registers := setReg vm.registers (rdIdx instr) value,
    ip := (vm.ip + 4) % 2 ^ 32 }

/-- Opcode 0x28 (`sb`): store the low byte of `rt` at the signed
effective address. -/
def execSb (vm : VM) (instr : Nat) : Option VM := do
  let m ← setMemInt vm.memory (eaSigned vm instr)
    (vm.registers (rtIdx instr) % 0x100)
  some { vm with memory := m, ip := (vm.ip + 4) % 2 ^ 32 }

/-- Opcode 0x29 (`sh`): big-endian halfword store at the signed
effective address. -/
def execSh (vm : VM) (instr : Nat) : Option VM := do
  let a := eaSigned vm instr
  let rtv := vm.registers (rtIdx instr)
  let m1 ← setMemInt vm.memory a ((rtv &&& 0xFF00) >>> 8)
  let m2 ← setMemInt m1 (a + 1) (rtv &&& 0x00FF)
  some { vm with memory := m2, ip := (vm.ip + 4) % 2 ^ 32 }

/-- Opcode 0x2B (`sw`): big-endian word store at the signed effective
address. -/
def execSw (vm : VM) (instr : Nat) : Option VM := do
  let a := eaSigned vm instr
  let rtv := vm.registers (rtIdx instr)
  let m0 ← setMemInt vm.memory a ((rtv &&& 0xFF000000) >>> 24)
  let m1 ← setMemInt m0 (a + 1) ((rtv &&& 0x00FF0000) >>> 16)
  let m2 ← setMemInt m1 (a + 2) ((rtv &&& 0x0000FF00) >>> 8)
  let m3 ← setMemInt m2 (a + 3) (rtv &&& 0x000000FF)
  some { vm with memory := m3, ip := (vm.ip + 4) % 2 ^ 32 }

/-- Opcode 0x08 (`addi`): the source's case body is an empty stub —
nothing is written and `ip` is not advanced. -/
def execAddi (vm : VM) (_instr : Nat) : Option VM :=
  some vm

/-- Opcode 0x09 (`addiu`): `rt` receives the 32-bit wrapped sum of the
sign extended immediate and `rs`. -/
def execAddiu (vm : VM) (instr : Nat) : Option VM :=
  let sum := wrap32 (toSigned16 (extract instr IMMD) +
    (vm.registers (rsIdx instr) : Int))
  some { vm with
    registers := setReg vm.registers (rtIdx instr) sum,
    ip := (vm.ip + 4) % 2 ^ 32 }

/-- Opcode 0x06 (`blez`): branch when the signed value of `rs` is at
most zero. -/
def execBlez (vm : VM) (instr : Nat) : Option VM :=
  if toSigned32 (vm.registers (rsIdx instr)) ≤ 0 then
    some { vm with ip := branchTakenIp vm.ip instr }
  else
    some { vm with ip := (vm.ip + 4) % 2 ^ 32 }

/-- Opcode 0x07 (`bgtz`): the source compares the UNSIGNED register
value against zero (`unsigned rs; if (rs > 0)`). -/
def execBgtz (vm : VM) (instr : Nat) : Option VM :=
  if 0 < vm.registers (rsIdx instr) then
    some { vm with ip := branchTakenIp vm.ip instr }
  else
    some { vm with ip := (vm.ip + 4) % 2 ^ 32 }

/-- Opcode 0x04 (`beq`). -/
def execBeq (vm : VM) (instr : Nat) : Option VM :=
  if vm.registers (rsIdx instr) = vm.registers (rtIdx instr) then
    some { vm with ip := branchTakenIp vm.ip instr }
  else
    some { vm with ip := (vm.ip + 4) % 2 ^ 32 }

/-- Opcode 0x05 (`bne`). -/
def execBne (vm : VM) (instr : Nat) : Option VM :=
  if vm.registers (rsIdx instr) ≠ vm.registers (rtIdx instr) then
    some { vm with ip := branchTakenIp vm.ip instr }
  else
    some { vm with ip := (vm.ip + 4) % 2 ^ 32 }

/-- Opcode 0x0E (`xori`): the `short` immediate is converted back to
`unsigned` (sign extension) before the exclusive or. -/
def execXori (vm : VM) (instr : Nat) : Option VM :=
  let v := vm.registers (rsIdx instr) ^^^
    wrap32 (toSigned16 (extract instr IMMD))
  some { vm with
    registers := setReg vm.registers (rtIdx instr) v,
    ip := (vm.ip + 4) % 2 ^ 32 }

/-- Funct 0x00 (`sll`). -/
def execSll (vm : VM) (instr : Nat) : Option VM :=
  let v := (vm.registers (rtIdx instr) <<< extract instr SHMT) % 2 ^ 32
  some { vm with
    registers := setReg vm.registers (rdIdx instr) v,
    ip := (vm.ip + 4) % 2 ^ 32 }

/-- Funct 0x02 (`srl`). -/
def execSrl (vm : VM) (instr : Nat) : Option VM :=
  let v := vm.registers (rtIdx instr) >>> extract instr SHMT
  some { vm with
    registers := setReg vm.registers (rdIdx instr) v,
    ip := (vm.ip + 4) % 2 ^ 32 }

/-- Funct 0x29 (`sltu`): unsigned comparison. -/
def execSltu (vm : VM) (instr : Nat) : Option VM :=
  let v := if vm.registers (rsIdx instr) < vm.registers (rtIdx instr)
    then 1 else 0
  some { vm with
    registers := setReg vm.registers (rdIdx instr) v,
    ip := (vm.ip + 4) % 2 ^ 32 }

/-- Funct 0x2A (`slt`): signed comparison. -/
def execSlt (vm : VM) (instr : Nat) : Option VM :=
  let v := if toSigned32 (vm.registers (rsIdx instr)) <
      toSigned32 (vm.registers (rtIdx instr)) then 1 else 0
  some { vm with
    registers := setReg vm.registers (rdIdx instr) v,
    ip := (vm.ip + 4) % 2 ^ 32 }

/-- Funct 0x21 (`addu`). -/
def execAddu (vm : VM) (instr : Nat) : Option VM :=
  let sum := (vm.registers (rsIdx instr) + vm.registers (rtIdx instr)) % 2 ^ 32
  some { vm with
    registers := setReg vm.registers (rdIdx instr) sum,
    ip := (vm.ip + 4) % 2 ^ 32 }

/-- Funct 0x20 (`add`): signed addition wrapped back to 32 bits. -/
def execAdd (vm : VM) (instr : Nat) : Option VM :=
  let sum := wrap32 (toSigned32 (vm.registers (rsIdx instr)) +
    toSigned32 (vm.registers (rtIdx instr)))
  some { vm with
    registers := setReg vm.registers (rdIdx instr) sum,
    ip := (vm.ip + 4) % 2 ^ 32 }

/-- Funct 0x19 (`multu`): `unsigned long result = rs * rt` multiplies
the two `unsigned` operands in 32 bits (wrapping) BEFORE widening to
`unsigned long`, then splits that into `hi`/`lo`. -/
def execMultu (vm : VM) (instr : Nat) : Option VM :=
  let result := (vm.registers (rsIdx instr) * vm.registers (rtIdx instr)) %
    2 ^ 32
  some { vm with
    hi := (result &&& 0xFFFFFFFF00000000) >>> 32,
    lo := result &&& 0x00000000FFFFFFFF,
    ip := (vm.ip + 4) % 2 ^ 32 }

/-- Funct 0x18 (`mult`): `long result = rs * rt` multiplies the two
`int` operands in 32 bits (wrapping) BEFORE widening to `long`; the
mask operations then view `result` as a 64-bit unsigned value. -/
def execMult (vm : VM) (instr : Nat) : Option VM :=
  let p := toSigned32 (vm.registers (rsIdx instr)) *
    toSigned32 (vm.registers (rtIdx instr))
  let result := wrap64 (toSigned32 (wrap32 p))
  some { vm with
    hi := (result &&& 0xFFFFFFFF00000000) >>> 32,
    lo := result &&& 0x00000000FFFFFFFF,
    ip := (vm.ip + 4) % 2 ^ 32 }

/-- Funct 0x1B (`divu`): the source divides with `%` and `/` with no
zero check; division by zero is C++ undefined behaviour (a trap on
common targets), modelled as `none`. -/
def execDivu (vm : VM) (instr : Nat) : Option VM :=
  let rsv := vm.registers (rsIdx instr)
  let rtv := vm.registers (rtIdx instr)
  if rtv = 0 then none
  else some { vm with
    hi := rsv % rtv, lo := rsv / rtv, ip := (vm.ip + 4) % 2 ^ 32 }

/-- Funct 0x1A (`div`): signed division with no zero check (and no
guard for the overflowing INT_MIN / -1), C++ undefined behaviour
modelled as `none`; otherwise C++ `/` and `%` truncate toward zero. -/
def execDiv (vm : VM) (instr : Nat) : Option VM :=
  let rsv := toSigned32 (vm.registers (rsIdx instr))
  let rtv := toSigned32 (vm.registers (rtIdx instr))
  if rtv = 0 then none
  else if rsv = -(2 ^ 31) ∧ rtv = -1 then none
  else some { vm with
    hi := wrap32 (Int.tmod rsv rtv),
    lo := wrap32 (Int.tdiv rsv rtv),
    ip := (vm.ip + 4) % 2 ^ 32 }

/-- Funct 0x08 (`jr`). -/
def execJr (vm : VM) (instr : Nat) : Option VM :=
  some { vm with ip := vm.registers (rsIdx instr) }

/-- Funct 0x09 (`jalr`): the link is written to `rd` first, then `ip`
is loaded from `rs` (reading the possibly just-updated register). -/
def execJalr (vm : VM) (instr : Nat) : Option VM :=
  let R := setReg vm.registers (rdIdx instr) ((vm.ip + 4) % 2 ^ 32)
  some { vm with registers := R, ip := R (rsIdx instr) }

/-- Funct 0x24 (`and`). -/
def execAnd (vm : VM) (instr : Nat) : Option VM :=
  let v := vm.registers (rsIdx instr) &&& vm.registers (rtIdx instr)
  some { vm with
    registers := setReg vm.registers (rdIdx instr) v,
    ip := (vm.ip + 4) % 2 ^ 32 }

/-- Funct 0x25 (`or`). -/
def execOr (vm : VM) (instr : Nat) : Option VM :=
  let v := vm.registers (rsIdx instr) ||| vm.registers (rtIdx instr)
  some { vm with
    registers := setReg vm.registers (rdIdx instr) v,
    ip := (vm.ip + 4) % 2 ^ 32 }

/-- Funct 0x27 (`nor`): `~` on a 32-bit `unsigned` flips 32 bits. -/
def execNor (vm : VM) (instr : Nat) : Option VM :=
  let v := (vm.registers (rsIdx instr) ||| vm.registers (rtIdx instr)) ^^^
    0xFFFFFFFF
  some { vm with
    registers := setReg vm.registers (rdIdx instr) v,
    ip := (vm.ip + 4) % 2 ^ 32 }

/-- Funct 0x26 (`xor`). -/
def execXor (vm : VM) (instr : Nat) : Option VM :=
  let v := vm.registers (rsIdx instr) ^^^ vm.registers (rtIdx instr)
  some { vm with
    registers := setReg vm.registers (rdIdx instr) v,
    ip := (vm.ip + 4) % 2 ^ 32 }

/-- Funct 0x13 (`mtlo`). -/
def execMtlo (vm : VM) (instr : Nat) : Option VM :=
  some { vm with
    lo := vm.registers (rsIdx instr), ip := (vm.ip + 4) % 2 ^ 32 }

/-- Funct 0x11 (`mthi`). -/
def execMthi (vm : VM) (instr : Nat) : Option VM :=
  some { vm with
    hi := vm.registers (rsIdx instr), ip := (vm.ip + 4) % 2 ^ 32 }

/-- Funct 0x10 (`mfhi`). -/
def execMfhi (vm : VM) (instr : Nat) : Option VM :=
  some { vm with
    registers := setReg vm.registers (rdIdx instr) vm.hi,
    ip := (vm.ip + 4) % 2 ^ 32 }

/-- Funct 0x12 (`mflo`). -/
def execMflo (vm : VM) (instr : Nat) : Option VM :=
  some { vm with
    registers := setReg vm.registers (rdIdx instr) vm.lo,
    ip := (vm.ip + 4) % 2 ^ 32 }

/-- Funct 0x0C (`syscall`): the kernel call body is a stub comment; only
`ip` advances. -/
def execSyscall (vm : VM) (_instr : Nat) : Option VM :=
  some { vm with ip := (vm.ip + 4) % 2 ^ 32 }

/-- One fetch-decode-dispatch step (`VirtualMachine::cycle`): a two
level switch on the opcode and, for opcode zero, on the funct field;
unknown opcodes and functs call `exit(1)`, modelled as `none`. -/
def cycle (vm : VM) : Option VM :=
  match fetch vm with
  | none => none
  | some instr =>
    let op := extract instr OP
    if op = 0x02 then execJ vm instr
    else if op = 0x03 then execJal vm instr
    else if op = 0x20 then execLb vm instr
    else if op = 0x24 then execLbu vm instr
    else if op = 0x21 then execLh vm instr
    else if op = 0x25 then execLhu vm instr
    else if op = 0x23 then execLw vm instr
    else if op = 0x0F then execLui vm instr
    else if op = 0x28 then execSb vm instr
    else if op = 0x29 then execSh vm instr
    else if op = 0x2B then execSw vm instr
    else if op = 0x08 then execAddi vm instr
    else if op = 0x09 then execAddiu vm instr
    else if op = 0x06 then execBlez vm instr
    else if op = 0x07 then execBgtz vm instr
    else if op = 0x04 then execBeq vm instr
    else if op = 0x05 then execBne vm instr
    else if op = 0x0E then execXori vm instr
    else if op = 0x00 then
      let fn := extract instr FN
      if fn = 0x00 then execSll vm instr
      else if fn = 0x02 then execSrl vm instr
      else if fn = 0x29 then execSltu vm instr
      else if fn = 0x2A then execSlt vm instr
      else if fn = 0x21 then execAddu vm instr
      else if fn = 0x20 then execAdd vm instr
      else if fn = 0x19 then execMultu vm instr
      else if fn = 0x18 then execMult vm instr
      else if fn = 0x1B then execDivu vm instr
      else if fn = 0x1A then execDiv vm instr
      else if fn = 0x08 then execJr vm instr
      else if fn = 0x09 then execJalr vm instr
      else if fn = 0x24 then execAnd vm instr
      else if fn = 0x25 then execOr vm instr
      else if fn = 0x27 then execNor vm instr
      else if fn = 0x26 then execXor vm instr
      else if fn = 0x13 then execMtlo vm instr
      else if fn = 0x11 then execMthi vm instr
      else if fn = 0x10 then execMfhi vm instr
      else if fn = 0x12 then execMflo vm instr
      else if fn = 0x0C then execSyscall vm instr
      else none
    else none

/-!
Concrete machine states used to evaluate `cycle` on the failing inputs
of the claims, and the claim theorems themselves.
-/

/-- State with `R[1] = R[2] = 0xFFFFFFFF` and a `multu $1, $2`
instruction (word 0x00220019) at address 0. -/
def vmMultu : VM where
  registers := fun i => if i = 1 then 0xFFFFFFFF else if i = 2 then 0xFFFFFFFF else 0
  memory := [0x00, 0x22, 0x00, 0x19]
  ip := 0
  hi := 0
  lo := 0

/-- C1: refuted on the code. With `R[rs] = R[rt] = 0xFFFFFFFF`, `multu`
leaves `HI = 0` and `LO = 1` because the source multiplies the two
`unsigned` operands in 32 bits before widening to `unsigned long`; the
claim (and spec scenario S6) requires `HI = 0xFFFFFFFE`, `LO = 1`. -/
theorem multu_truncated_product :
    (cycle vmMultu).map (fun v => (v.hi, v.lo)) = some (0, 1) := by decide

/-- State with an `addi $8, $0, 5` instruction (word 0x20080005) at
address 0. -/
def vmAddi : VM where
  registers := fun _ => 0
  memory := [0x20, 0x08, 0x00, 0x05]
  ip := 0
  hi := 0
  lo := 0

/-- C2: refuted on the code. The `addi` case (op 0x08) is an empty stub:
after one cycle the PC is still 0 (not p + 4 = 4) and `R[8]` is still 0,
so not every recognized instruction updates the PC. -/
theorem addi_leaves_pc_unchanged :
    (cycle vmAddi).map (fun v => (v.ip, v.registers 8)) = some (0, 0) := by decide

/-- State with sentinels `R[1] = 7`, `R[2] = 9` and a
`lui $1, 0x1234` instruction (word 0x3C011234, `rt` field 1, `rd` field
bits give 2) at address 0. -/
def vmLui : VM where
  registers := fun i => if i = 1 then 7 else if i = 2 then 9 else 0
  memory := [0x3C, 0x01, 0x12, 0x34]
  ip := 0
  hi := 0
  lo := 0

/-- C3: refuted on the code. `lui` with `rt = 1`, `imm16 = 0x1234`
leaves `R[1]` untouched (still 7) and stores 0 into the `rd` register
`R[2]`: the source writes the `rd` field and truncates `imm16 << 16`
through an `unsigned short`; the claim requires `R[1] = 0x12340000`. -/
theorem lui_writes_rd_zero :
    (cycle vmLui).map (fun v => (v.registers 1, v.registers 2, v.ip)) =
      some (7, 0, 4) := by decide

/-- State with `R[1] = 0x10`, 16 bytes of memory with `MEM[0xF] = 0xAB`,
and a `lbu $2, -1($1)` instruction (word 0x9022FFFF) at address 0. -/
def vmLbu : VM where
  registers := fun i => if i = 1 then 0x10 else 0
  memory := [0x90, 0x22, 0xFF, 0xFF, 0, 0, 0, 0, 0, 0, 0, 0, 0, 0, 0, 0xAB]
  ip := 0
  hi := 0
  lo := 0

/-- C4: refuted on the code. `lbu` with `R[rs] = 0x10` and
`imm16 = 0xFFFF` (i.e. -1) should access `EA = 0xF` (in bounds, byte
0xAB), but the source zero extends the immediate, computes address
`0x1000F`, and the out-of-bounds access aborts the cycle. -/
theorem lbu_zero_extends_offset : cycle vmLbu = none := rfl

/-- State with memory bytes 0xAB 0xCD at addresses 4 and 5 and a
`lhu $2, 4($1)` instruction (word 0x94220004) at address 0. -/
def vmLhu : VM where
  registers := fun _ => 0
  memory := [0x94, 0x22, 0x00, 0x04, 0xAB, 0xCD]
  ip := 0
  hi := 0
  lo := 0

/-- C5: refuted on the code. `lhu` from a halfword 0xABCD loads
`R[rt] = 0xCD`: the source stores `(MEM[EA] << 8) | MEM[EA+1]` into an
`unsigned char`, discarding the high byte; the claim requires
`R[rt] = 0xABCD`. -/
theorem lhu_drops_high_byte :
    (cycle vmLhu).map (fun v => v.registers 2) = some 0xCD := by decide

/-- State with `R[1] = 0x80000000` (negative as a signed word) and a
`bgtz $1, +4` instruction (word 0x1C200004) at address 0. -/
def vmBgtz : VM where
  registers := fun i => if i = 1 then 0x80000000 else 0
  memory := [0x1C, 0x20, 0x00, 0x04]
  ip := 0
  hi := 0
  lo := 0

/-- C6: refuted on the code. With `R[rs] = 0x80000000` (signed value
-2^31 < 0) the claim requires fallthrough to PC = 4, but the source
compares the register unsigned (`rs > 0`) and takes the branch:
the new PC is 0 + 4 + (4 << 2) = 20. -/
theorem bgtz_taken_on_negative : (cycle vmBgtz).map VM.ip = some 20 := by decide

/-- State with an `addiu $0, $0, 5` instruction (word 0x24000005,
destination field `rt = 0`) at address 0. -/
def vmAddiuR0 : VM where
  registers := fun _ => 0
  memory := [0x24, 0x00, 0x00, 0x05]
  ip := 0
  hi := 0
  lo := 0

/-- C7: refuted on the code. `addiu` with `rt = 0` writes 5 into
`R[0]`: the source writes through `registers.at(rt)` with no discard of
writes to register 0, so `R[0]` does not read as zero afterwards. -/
theorem r0_write_not_discarded :
    (cycle vmAddiuR0).map (fun v => v.registers 0) = some 5 := by decide

/-- State with `R[1] = 10`, `R[2] = 0` and a `divu $1, $2` instruction
(word 0x0022001B) at address 0. -/
def vmDivuZero : VM where
  registers := fun i => if i = 1 then 10 else 0
  memory := [0x00, 0x22, 0x00, 0x1B]
  ip := 0
  hi := 0
  lo := 0

/-- C8: refuted on the code. `divu` with `R[rt] = 0` executes the C++
`%` and `/` with a zero divisor — undefined behaviour that traps on
common targets, modelled as a faulting cycle (`none`) — instead of
completing with PC advanced by 4 as the claim requires. -/
theorem divu_by_zero_faults : cycle vmDivuZero = none := rfl

/-- Unfolding of the `ADDR` field: the shifted 26-bit jump target. -/
theorem extract_addr_eq (w : Nat) :
    extract w ADDR = (w &&& 0x03FFFFFF) * 4 := by
  show (w &&& 0x03FFFFFF) <<< 2 = (w &&& 0x03FFFFFF) * 4
  rw [Nat.shiftLeft_eq]

/-- C9: for any state whose fetched word has opcode 0x02 (`j`) or 0x03
(`jal`), the cycle sets the PC to
`(p &&& 0xF0000000) ||| (target26 * 4)` where `p` is the PC of the jump
itself, and for `jal` additionally stores the link value `p + 4` (mod
2^32) in register 31 first. -/
theorem j_jal_set_pc (vm : VM) (w : Nat) (hf : fetch vm = some w)
    (hop : extract w OP = 0x02 ∨ extract w OP = 0x03) :
    cycle vm = some { vm with
      registers := if extract w OP = 0x03
        then setReg vm.registers 31 ((vm.ip + 4) % 2 ^ 32)
        else vm.registers,
      ip := (vm.ip &&& 0xF0000000) ||| ((w &&& 0x03FFFFFF) * 4) } := by
  unfold cycle
  rw [hf]
  rcases hop with h | h
  · simp [h, execJ, extract_addr_eq]
  · simp [h, execJal, extract_addr_eq]

/-- State with a `jal 0x4` instruction (word 0x0C000004) at address 0. -/
def vmJal : VM where
  registers := fun _ => 0
  memory := [0x0C, 0x00, 0x00, 0x04]
  ip := 0
  hi := 0
  lo := 0

/-- Witness for C9: the jump theorem applied to a concrete `jal`
instruction. -/
theorem j_jal_set_pc_witness :
    cycle vmJal = some { vmJal with
      registers := if extract 0x0C000004 OP = 0x03
        then setReg vmJal.registers 31 ((vmJal.ip + 4) % 2 ^ 32)
        else vmJal.registers,
      ip := (vmJal.ip &&& 0xF0000000) ||| ((0x0C000004 &&& 0x03FFFFFF) * 4) } :=
  j_jal_set_pc vmJal 0x0C000004 (by decide) (Or.inr (by decide))

/-- C10: for every 32-bit instruction word the decoded `rs`, `rt` and
`rd` fields are strictly below 32, so every register-file index formed
from them stays inside the 32-entry register array. -/
theorem decoded_reg_fields_lt (w : Nat) :
    extract w RS < 32 ∧ extract w RT < 32 ∧ extract w RD < 32 :=
  ⟨extract_rs_lt w, extract_rt_lt w, extract_rd_lt w⟩
